import Mathlib

/-
  Verification development for the terminal heart-rain animation
  (src/relationship_animation.py).

  Conventions of the embedding:
  * Python floats are modelled as exact rationals (ℚ).
  * Python strings are modelled as List Char (and String for small tags
    such as size / style names).
  * Python `int()` truncation toward zero is modelled by pyInt.
  * Randomness is modelled by passing the drawn values as explicit
    arguments, together with the contract of the drawing primitive
    (e.g. random.uniform a b yields a value in [a, b]) as a hypothesis
    where a claim needs it.
-/

namespace RelAnim

/- ---------------------------------------------------------------
   ShapeRasterizer: heart_mask (source lines 75-114)
   --------------------------------------------------------------- -/

-- `x_scale = 1.18 if width <= 9 else 1.12` (line 82)
def x_scale (width : ℕ) : ℚ := if width ≤ 9 then 118/100 else 112/100

-- `y_scale = 1.0` (line 83)
def y_scale : ℚ := 1

-- `shrink = 0.90 if width <= 7 else 0.95` (line 86)
def shrink (width : ℕ) : ℚ := if width ≤ 7 then 90/100 else 95/100

-- `base_threshold = 0.01 if width <= 7 else 0.0` (line 88)
def base_threshold (width : ℕ) : ℚ := if width ≤ 7 then 1/100 else 0

-- `ss = 4 if width <= 9 else 3` (line 91); named ssN here because the
-- two-letter source name collides with common Lean binder names.
def ssN (width : ℕ) : ℕ := if width ≤ 9 then 4 else 3

-- `inv = 1.0 / ss` (line 92)
def invN (width : ℕ) : ℚ := 1 / (ssN width : ℚ)

-- The inside test for one subsample of cell (row, col): body of the
-- innermost loop of heart_mask (lines 98-110).
def insideSample (width height row col sr sc : ℕ) : Bool :=
  let fr : ℚ := ((row : ℚ) + ((sr : ℚ) + 1/2) * invN width) / max 1 ((height : ℚ) - 1)
  let fc : ℚ := ((col : ℚ) + ((sc : ℚ) + 1/2) * invN width) / max 1 ((width : ℚ) - 1)
  let y : ℚ := 1 - 2 * fr
  let x : ℚ := -1 + 2 * fc
  let xs : ℚ := x * (x_scale width * shrink width)
  let ys : ℚ := y * (y_scale * shrink width)
  let v : ℚ := xs * xs + ys * ys - 1
  decide (v * v * v - xs * xs * (ys * (ys * ys)) ≤ base_threshold width)

-- `inside_count` accumulated over the ss × ss subsample grid (lines 97-110).
def inside_count (width height row col : ℕ) : ℕ :=
  ((List.range (ssN width)).map (fun sr =>
    (List.range (ssN width)).countP (fun sc => insideSample width height row col sr sc))).sum

-- `coverage = inside_count / float(ss * ss)` (line 111)
def coverage (width height row col : ℕ) : ℚ :=
  (inside_count width height row col : ℚ) / ((ssN width * ssN width : ℕ) : ℚ)

-- heart_mask proper: the full coverage grid (lines 94-114).
def heart_mask (width height : ℕ) : List (List ℚ) :=
  (List.range height).map (fun row =>
    (List.range width).map (fun col => coverage width height row col))

/- ---------------------------------------------------------------
   ShapeRasterizer: mask_to_sprite (source lines 116-152)
   --------------------------------------------------------------- -/

-- `char_from_coverage` (lines 126-136); fill_char = '•', mid_char = '·',
-- outline_char = '·' (lines 120-122).
def char_from_coverage (cov : ℚ) (mode : String) : Char :=
  if mode = "outline" then
    (if 25/100 ≤ cov ∧ cov ≤ 75/100 then '·' else (if cov < 25/100 then ' ' else ' '))
  else
    if cov ≥ 66/100 then '•'
    else if cov ≥ 3/10 then '·'
    else ' '

-- Python str.rstrip() on a row of sprite characters (only spaces occur).
def rstrip (l : List Char) : List Char := (l.reverse.dropWhile (· == ' ')).reverse

-- mask_to_sprite (lines 116-152): render each row, rstrip it, drop
-- all-blank rows at top and bottom (a rstripped row is all-blank iff it
-- is empty), then right-pad every row to the maximum row width.
def mask_to_sprite (mask : List (List ℚ)) (style : String) : List (List Char) :=
  let rows0 := mask.map (fun line => rstrip (line.map (fun cov => char_from_coverage cov style)))
  let rows1 := rows0.dropWhile List.isEmpty
  let rows2 := (rows1.reverse.dropWhile List.isEmpty).reverse
  let maxw := (rows2.map List.length).foldr max 0
  rows2.map (fun r => r ++ List.replicate (maxw - r.length) ' ')

-- make_heart_sprite (lines 154-162): size-class dimension table.
def make_heart_sprite (size style : String) : List (List Char) :=
  let wh : ℕ × ℕ :=
    if size = "small" then (9, 8)
    else if size = "medium" then (13, 11)
    else (17, 15)
  mask_to_sprite (heart_mask wh.1 wh.2) style

/- ---------------------------------------------------------------
   ParticleModel: Heart (source lines 175-190)
   --------------------------------------------------------------- -/

structure Heart where
  x : ℤ
  y : ℚ
  color : String
  speed : ℚ
  size : String
  style : String
  sprite : List (List Char)
  w : ℕ
  h : ℕ
  twinkle_phase : ℕ
  twinkle_next : ℚ
deriving DecidableEq

-- Heart.step (lines 189-190): `self.y += self.speed`.
def Heart.step (ht : Heart) : Heart := { ht with y := ht.y + ht.speed }

-- Python int() truncates toward zero.
def pyInt (q : ℚ) : ℤ := if 0 ≤ q then ⌊q⌋ else ⌈q⌉

/- ---------------------------------------------------------------
   hearts_overlap (source lines 193-207)
   --------------------------------------------------------------- -/

def hearts_overlap (h1 h2 : Heart) : Bool :=
  let h1_left : ℤ := h1.x - (h1.w / 2 : ℕ)
  let h1_right : ℤ := h1_left + h1.w
  let h1_top : ℤ := pyInt h1.y
  let h1_bottom : ℤ := h1_top + h1.h
  let h2_left : ℤ := h2.x - (h2.w / 2 : ℕ)
  let h2_right : ℤ := h2_left + h2.w
  let h2_top : ℤ := pyInt h2.y
  let h2_bottom : ℤ := h2_top + h2.h
  !(decide (h1_right < h2_left) || decide (h1_left > h2_right) ||
    decide (h1_bottom < h2_top) || decide (h1_top > h2_bottom))

-- The screen cells covered by a heart's bounding box, as placed by
-- draw_frame (lines 233-256): rows top..top+h-1, columns left..left+w-1,
-- with top = int(y) and left = int(x) - w // 2.
def box_cells (ht : Heart) : List (ℤ × ℤ) :=
  let left : ℤ := ht.x - (ht.w / 2 : ℕ)
  let top : ℤ := pyInt ht.y
  ((List.range ht.h).map (fun (r : ℕ) =>
    (List.range ht.w).map (fun (c : ℕ) => (top + (r : ℤ), left + (c : ℤ))))).flatten

-- Two hearts' bounding boxes occupy disjoint sets of screen cells.
def cells_disjoint (a b : Heart) : Bool :=
  (box_cells a).all (fun p => decide (p ∉ box_cells b))

/- ---------------------------------------------------------------
   FrameCompositor pieces (source lines 216-272)
   --------------------------------------------------------------- -/

-- center_text (lines 216-220).
def center_text (text : List Char) (width : ℕ) : List Char :=
  if text.length ≥ width then text.take width
  else List.replicate ((width - text.length) / 2) ' ' ++ text

-- "\x1b[95m" : the fixed emphasis color put in front of the message
-- (line 268), and RESET = "\x1b[0m" (line 44) appended after it.
def escMsgColor : List Char := ['\x1b', '[', '9', '5', 'm']
def escReset : List Char := ['\x1b', '[', '0', 'm']

-- Row 1 of the frame buffer as draw_frame builds it (lines 267-272):
-- the row starts as `width` spaces, and centered[:width] is copied in
-- character by character starting at column 0.
def draw_msg_row (msg : List Char) (width : ℕ) : List Char :=
  let msg_colored := escMsgColor ++ msg ++ escReset
  let centered := center_text msg_colored width
  let placed := centered.take width
  placed ++ List.replicate (width - placed.length) ' '

/- ---------------------------------------------------------------
   AnimationLoop: cull, spawn ramp, spawn pass (source lines 281-419)
   --------------------------------------------------------------- -/

-- Cull (line 340): `hearts = [h for h in hearts if h.y < height]`.
def cull (hearts : List Heart) (height : ℕ) : List Heart :=
  hearts.filter (fun ht => decide (ht.y < (height : ℚ)))

-- Animation parameters (lines 284-291).
def target_spawn_chance_per_col : ℚ := 3/100
def ramp_duration : ℚ := 10
def base_min_speed : ℚ := 6/100
def base_max_speed : ℚ := 35/100

-- Spawn-chance ramp (lines 344-348).
def spawn_chance (elapsed : ℚ) : ℚ :=
  if 0 < ramp_duration then
    min target_spawn_chance_per_col (target_spawn_chance_per_col * (elapsed / ramp_duration))
  else target_spawn_chance_per_col

-- Per-column spawn gate (line 352): `random.random() < spawn_chance_per_col`,
-- where rand is the value drawn by random.random() (contract: 0 ≤ rand < 1).
def spawn_attempted (rand elapsed : ℚ) : Bool := decide (rand < spawn_chance elapsed)

-- Speed assignment by size class (lines 377-380).
def spawn_speed_range (size : String) : ℚ × ℚ :=
  if size = "small" then (base_min_speed, base_min_speed + 8/100)
  else (base_min_speed + 6/100, base_min_speed + 22/100)

-- Candidate construction (lines 382-394); the random draws (glyph,
-- speed, color, twinkle phase, twinkle timer) are passed in explicitly.
def spawn_heart (col : ℕ) (size_choice style_choice : String) (glyph : List Char)
    (speed : ℚ) (color : String) (phase : ℕ) (tnext : ℚ) : Heart :=
  { x := (col : ℤ)
    y := 2
    color := color
    speed := speed
    size := size_choice
    style := style_choice
    sprite := [glyph]
    w := glyph.length
    h := 1
    twinkle_phase := phase
    twinkle_next := tnext }

-- Collision rejection for one candidate (lines 396-405): the candidate
-- is appended to the live list iff it overlaps no currently-live heart.
def try_spawn (hearts : List Heart) (cand : Heart) : List Heart :=
  if hearts.any (fun existing => hearts_overlap cand existing) then hearts
  else hearts ++ [cand]

-- One whole spawn-planning pass (lines 351-405): the per-column RNG
-- outcomes are abstracted as the list of candidates that passed the
-- spawn gate, processed left to right against the growing live list.
def spawn_pass (hearts : List Heart) (cands : List Heart) : List Heart :=
  cands.foldl try_spawn hearts

-- No two hearts in the list have overlapping bounding boxes.
def NoOverlaps (l : List Heart) : Prop :=
  l.Pairwise (fun a b => hearts_overlap a b = false)

-- Per-tick particle update (lines 331-337): position integration plus
-- the twinkle re-roll; newPhase and rollNext are the random draws used
-- when the twinkle timer has expired.
def update_heart (ht : Heart) (now : ℚ) (newPhase : ℕ) (rollNext : ℚ) : Heart :=
  let moved := { ht with y := ht.y + ht.speed }
  if moved.twinkle_next ≤ now then
    { moved with twinkle_phase := newPhase, twinkle_next := now + rollNext }
  else moved

/- ---------------------------------------------------------------
   Teardown model (source lines 299-426): main's
   try / except KeyboardInterrupt / finally structure
   --------------------------------------------------------------- -/

inductive TermAction where
  | altScreenOn
  | hideCursor
  | frame
  | exitMessage
  | showCursor
  | altScreenOff
deriving DecidableEq

inductive PyExc where
  | keyboardInterrupt
  | other
deriving DecidableEq

-- Exceptional outcomes of the animation loop body: it either runs some
-- number of frames and returns, or is cancelled by KeyboardInterrupt at
-- an arbitrary tick, or raises some other exception at an arbitrary tick.
inductive LoopExit where
  | completed (ticks : ℕ)
  | interrupted (ticks : ℕ)
  | errored (ticks : ℕ)
deriving DecidableEq

-- Semantics of Python `try: body except KeyboardInterrupt: handler
-- finally: fin` for a body that emits actions and possibly raises: the
-- handler runs only on KeyboardInterrupt (swallowing it), the finally
-- suffix runs on every path, and other exceptions propagate.
def try_except_ki_finally (body : Option PyExc × List TermAction)
    (handler fin : List TermAction) : Option PyExc × List TermAction :=
  match body with
  | (none, acts) => (none, acts ++ fin)
  | (some PyExc.keyboardInterrupt, acts) => (none, acts ++ handler ++ fin)
  | (some PyExc.other, acts) => (some PyExc.other, acts ++ fin)

-- The loop body's emissions for each exit condition: one frame per tick
-- until the exit happens.
def loop_body (e : LoopExit) : Option PyExc × List TermAction :=
  match e with
  | LoopExit.completed n => (none, List.replicate n TermAction.frame)
  | LoopExit.interrupted n => (some PyExc.keyboardInterrupt, List.replicate n TermAction.frame)
  | LoopExit.errored n => (some PyExc.other, List.replicate n TermAction.frame)

-- main (lines 299-426): enter alternate screen and hide the cursor,
-- run the loop under try/except KeyboardInterrupt/finally; the except
-- handler prints the exit message (line 422) and the finally block
-- shows the cursor and leaves the alternate screen (line 425).
def main_run (e : LoopExit) : Option PyExc × List TermAction :=
  let pre := [TermAction.altScreenOn, TermAction.hideCursor]
  let res := try_except_ki_finally (loop_body e) [TermAction.exitMessage]
    [TermAction.showCursor, TermAction.altScreenOff]
  (res.1, pre ++ res.2)

-- A row of a sprite that consists entirely of transparent cells.
def all_blank (r : List Char) : Bool := r.all (· == ' ')

-- Well-formedness of a sprite: every row has the sprite's maximum row
-- width, and neither the first nor the last row is fully transparent.
def sprite_ok (rows : List (List Char)) : Bool :=
  rows.all (fun r => r.length == ((rows.map List.length).foldr max 0)) &&
  (match rows.head? with | none => true | some r => !all_blank r) &&
  (match rows.getLast? with | none => true | some r => !all_blank r)

-- A concrete heart used to instantiate witness statements.
def sampleHeart : Heart :=
  { x := 5, y := 2, color := "pink", speed := 1/2, size := "small", style := "filled",
    sprite := [['♥']], w := 1, h := 1, twinkle_phase := 0, twinkle_next := 0 }

-- A second concrete heart, far from sampleHeart.
def sampleHeart2 : Heart :=
  { x := 50, y := 2, color := "pink", speed := 1/4, size := "small", style := "outline",
    sprite := [['♡']], w := 1, h := 1, twinkle_phase := 1, twinkle_next := 0 }

/- ---------------------------------------------------------------
   Helper lemmas
   --------------------------------------------------------------- -/

lemma hearts_overlap_comm (a b : Heart) : hearts_overlap a b = hearts_overlap b a := by
  simp only [hearts_overlap, ← Bool.decide_or, ← decide_not, decide_eq_decide]
  omega

lemma hearts_overlap_self (a : Heart) : hearts_overlap a a = true := by
  simp only [hearts_overlap, ← Bool.decide_or, ← decide_not, decide_eq_true_eq]
  omega

lemma mem_box_cells {ht : Heart} {p : ℤ × ℤ} :
    p ∈ box_cells ht ↔
      ∃ r c : ℕ, r < ht.h ∧ c < ht.w ∧
        p = (pyInt ht.y + r, ht.x - (ht.w / 2 : ℕ) + c) := by
  rw [box_cells, List.mem_flatten]
  constructor
  · rintro ⟨row, hrow, hp⟩
    rw [List.mem_map] at hrow
    obtain ⟨r, hr, rfl⟩ := hrow
    rw [List.mem_map] at hp
    obtain ⟨c, hc, rfl⟩ := hp
    exact ⟨r, c, List.mem_range.mp hr, List.mem_range.mp hc, rfl⟩
  · rintro ⟨r, c, hr, hc, rfl⟩
    exact ⟨_, List.mem_map.mpr ⟨r, List.mem_range.mpr hr, rfl⟩,
      List.mem_map.mpr ⟨c, List.mem_range.mpr hc, rfl⟩⟩

lemma cube_le_cube {a b : ℚ} (hab : a ≤ b) : a * a * a ≤ b * b * b := by
  nlinarith [sq_nonneg (a + b), sq_nonneg (a - b), sq_nonneg a, sq_nonneg b]

-- Core geometric fact: near the center of the normalized frame the heart
-- implicit function is strictly negative, hence under any nonnegative
-- threshold.
lemma heart_cubic_nonpos {x y : ℚ} (hx : x * x ≤ 9/100) (hy : y * y ≤ 9/100) :
    (x * x + y * y - 1) * (x * x + y * y - 1) * (x * x + y * y - 1) -
      x * x * (y * (y * y)) ≤ 0 := by
  have hy' : -(3/10 : ℚ) ≤ y := by nlinarith [sq_nonneg (y + 3/10)]
  have h1 : 0 ≤ y * y * (y + 3/10) := mul_nonneg (mul_self_nonneg y) (by linarith)
  have h2 : -(3/10) * (x * x * (y * y)) ≤ x * x * (y * (y * y)) := by
    nlinarith [mul_nonneg (mul_self_nonneg x) h1]
  have h3 : x * x * (y * y) ≤ 81/10000 :=
    (mul_le_mul hx hy (mul_self_nonneg y) (by norm_num)).trans_eq (by norm_num)
  have h4 : (x * x + y * y - 1) * (x * x + y * y - 1) * (x * x + y * y - 1)
      ≤ (-(82/100) : ℚ) * (-(82/100)) * (-(82/100)) :=
    cube_le_cube (by linarith)
  nlinarith [h2, h3, h4]

-- The center cell's first subsample sits within 1/4 of the normalized
-- center on each axis, for any grid extent n ≥ 5 and subsample offset
-- ε ∈ [1/8, 1/6].
lemma center_off_sq_le (n : ℕ) (hn : 5 ≤ n) (ε : ℚ) (hε1 : 1/8 ≤ ε) (hε2 : ε ≤ 1/6) :
    (-1 + 2 * (((((n - 1) / 2 : ℕ) : ℚ) + ε) / ((n : ℚ) - 1))) *
      (-1 + 2 * (((((n - 1) / 2 : ℕ) : ℚ) + ε) / ((n : ℚ) - 1))) ≤ 1/16 := by
  rcases Nat.even_or_odd n with he | ho
  · obtain ⟨m, hm⟩ := he
    subst hm
    have hm3 : 3 ≤ m := by omega
    have hmq : (3 : ℚ) ≤ (m : ℚ) := by exact_mod_cast hm3
    have hdiv : ((m + m - 1) / 2 : ℕ) = m - 1 := by omega
    rw [hdiv]
    have hc1 : (((m - 1 : ℕ)) : ℚ) = (m : ℚ) - 1 := by
      rw [Nat.cast_sub (by omega)]
      norm_num
    have hcast : ((m + m : ℕ) : ℚ) = 2 * (m : ℚ) := by push_cast; ring
    rw [hc1, hcast]
    have hne : 2 * (m : ℚ) - 1 ≠ 0 := by
      intro hzero
      nlinarith
    have heq : -1 + 2 * (((m : ℚ) - 1 + ε) / (2 * (m : ℚ) - 1)) =
        (2 * ε - 1) / (2 * (m : ℚ) - 1) := by
      field_simp
      ring
    rw [heq, div_mul_div_comm, div_le_iff₀ (by nlinarith)]
    nlinarith [mul_nonneg (by linarith : (0:ℚ) ≤ ε - 1/8) (by linarith : (0:ℚ) ≤ 1/6 - ε),
      sq_nonneg ((m : ℚ) - 3), hmq]
  · obtain ⟨m, hm⟩ := ho
    subst hm
    have hm2 : 2 ≤ m := by omega
    have hmq : (2 : ℚ) ≤ (m : ℚ) := by exact_mod_cast hm2
    have hdiv : ((2 * m + 1 - 1) / 2 : ℕ) = m := by omega
    rw [hdiv]
    have hcast : ((2 * m + 1 : ℕ) : ℚ) = 2 * (m : ℚ) + 1 := by push_cast; ring
    rw [hcast]
    have hne : (m : ℚ) ≠ 0 := by
      intro hzero
      nlinarith
    have heq : -1 + 2 * (((m : ℚ) + ε) / (2 * (m : ℚ) + 1 - 1)) = ε / (m : ℚ) := by
      field_simp
      ring
    rw [heq, div_mul_div_comm, div_le_iff₀ (by nlinarith)]
    nlinarith [hε1, hε2, hmq]

-- The aspect / shrink scale factors of the rasterizer, squared, never
-- exceed 1.26; the vertical ones never exceed 1.
lemma x_factor_sq_le (w : ℕ) :
    (x_scale w * shrink w) * (x_scale w * shrink w) ≤ 126/100 := by
  rw [x_scale, shrink]
  split <;> split <;> norm_num

lemma y_factor_sq_le (w : ℕ) :
    (y_scale * shrink w) * (y_scale * shrink w) ≤ 1 := by
  rw [y_scale, shrink]
  split <;> norm_num

-- Assembled inequality: any sample point whose unscaled frame offsets X
-- and Y both have squares ≤ 1/16 satisfies the inside predicate of the
-- rasterizer for every width and nonnegative threshold.
lemma inside_ineq (w : ℕ) (X Y : ℚ) (hX : X * X ≤ 1/16) (hY : Y * Y ≤ 1/16) :
    ((X * (x_scale w * shrink w)) * (X * (x_scale w * shrink w)) +
      (Y * (y_scale * shrink w)) * (Y * (y_scale * shrink w)) - 1) *
    ((X * (x_scale w * shrink w)) * (X * (x_scale w * shrink w)) +
      (Y * (y_scale * shrink w)) * (Y * (y_scale * shrink w)) - 1) *
    ((X * (x_scale w * shrink w)) * (X * (x_scale w * shrink w)) +
      (Y * (y_scale * shrink w)) * (Y * (y_scale * shrink w)) - 1) -
    (X * (x_scale w * shrink w)) * (X * (x_scale w * shrink w)) *
      ((Y * (y_scale * shrink w)) * ((Y * (y_scale * shrink w)) * (Y * (y_scale * shrink w))))
    ≤ base_threshold w := by
  have hthr : 0 ≤ base_threshold w := by
    rw [base_threshold]
    split <;> norm_num
  have hXf := x_factor_sq_le w
  have hYf := y_factor_sq_le w
  have hXnn : 0 ≤ X * X := mul_self_nonneg X
  have hYnn : 0 ≤ Y * Y := mul_self_nonneg Y
  have hXfnn : 0 ≤ (x_scale w * shrink w) * (x_scale w * shrink w) :=
    mul_self_nonneg _
  have hYfnn : 0 ≤ (y_scale * shrink w) * (y_scale * shrink w) :=
    mul_self_nonneg _
  have hkx : (X * (x_scale w * shrink w)) * (X * (x_scale w * shrink w)) ≤ 9/100 := by
    have := mul_le_mul hX hXf hXfnn (by norm_num)
    nlinarith [this]
  have hky : (Y * (y_scale * shrink w)) * (Y * (y_scale * shrink w)) ≤ 9/100 := by
    have := mul_le_mul hY hYf hYfnn (by norm_num)
    nlinarith [this]
  have := heart_cubic_nonpos hkx hky
  linarith

-- The first subsample of the center cell lies inside the heart, for all
-- target sizes with both extents at least 5.
lemma insideSample_center (w h : ℕ) (hw : 5 ≤ w) (hh : 5 ≤ h) :
    insideSample w h ((h - 1) / 2) ((w - 1) / 2) 0 0 = true := by
  have hwq : (5 : ℚ) ≤ (w : ℚ) := by exact_mod_cast hw
  have hhq : (5 : ℚ) ≤ (h : ℚ) := by exact_mod_cast hh
  have hmaxh : max (1 : ℚ) ((h : ℚ) - 1) = (h : ℚ) - 1 := max_eq_right (by linarith)
  have hmaxw : max (1 : ℚ) ((w : ℚ) - 1) = (w : ℚ) - 1 := max_eq_right (by linarith)
  have hε1 : (1 : ℚ)/8 ≤ (((0 : ℕ) : ℚ) + 1/2) * invN w := by
    rw [invN, ssN]
    split <;> norm_num
  have hε2 : (((0 : ℕ) : ℚ) + 1/2) * invN w ≤ 1/6 := by
    rw [invN, ssN]
    split <;> norm_num
  have hX := center_off_sq_le w hw _ hε1 hε2
  have hE := center_off_sq_le h hh _ hε1 hε2
  have hY : (1 - 2 * (((((h - 1) / 2 : ℕ) : ℚ) + (((0 : ℕ) : ℚ) + 1/2) * invN w) / ((h : ℚ) - 1))) *
      (1 - 2 * (((((h - 1) / 2 : ℕ) : ℚ) + (((0 : ℕ) : ℚ) + 1/2) * invN w) / ((h : ℚ) - 1))) ≤ 1/16 := by
    nlinarith [hE]
  simp only [insideSample, decide_eq_true_eq]
  rw [hmaxh, hmaxw]
  exact inside_ineq w _ _ hX hY

lemma noOverlaps_try_spawn {l : List Heart} (hl : NoOverlaps l) (c : Heart) :
    NoOverlaps (try_spawn l c) := by
  unfold try_spawn
  split
  · exact hl
  · rename_i hno
    rw [Bool.not_eq_true, List.any_eq_false] at hno
    rw [NoOverlaps, List.pairwise_append]
    refine ⟨hl, List.pairwise_singleton _ _, ?_⟩
    intro a ha b hb
    rw [List.mem_singleton] at hb
    subst hb
    rw [hearts_overlap_comm]
    simpa using hno a ha

/- ---------------------------------------------------------------
   Claim theorems
   --------------------------------------------------------------- -/

/-- C4: the bounding-box overlap test is symmetric (`hearts_overlap a b =
hearts_overlap b a` for all hearts `a`, `b`) and reflexive
(`hearts_overlap a a = true` for every heart `a`). -/
theorem claim_C4 :
    (∀ a b : Heart, hearts_overlap a b = hearts_overlap b a) ∧
    (∀ a : Heart, hearts_overlap a a = true) :=
  ⟨hearts_overlap_comm, hearts_overlap_self⟩

/-- C2: for every elapsed time `t ≥ 0` the per-column spawn probability
equals `target * min 1 (t / ramp_duration)`; it is exactly 0 at `t = 0`,
never exceeds the target, equals the target exactly once `t ≥
ramp_duration`, and at `t = 0` no RNG draw `rand ≥ 0` can pass the spawn
gate. -/
theorem claim_C2 (t rand : ℚ) (_ht : 0 ≤ t) (hrand : 0 ≤ rand) :
    spawn_chance t = target_spawn_chance_per_col * min 1 (t / ramp_duration) ∧
    spawn_chance 0 = 0 ∧
    spawn_chance t ≤ target_spawn_chance_per_col ∧
    (ramp_duration ≤ t → spawn_chance t = target_spawn_chance_per_col) ∧
    spawn_attempted rand 0 = false := by
  have hramp : (0 : ℚ) < ramp_duration := by norm_num [ramp_duration]
  have hzero : spawn_chance 0 = 0 := by
    norm_num [spawn_chance, target_spawn_chance_per_col, ramp_duration]
  refine ⟨?_, hzero, ?_, ?_, ?_⟩
  · rw [spawn_chance, if_pos hramp]
    rcases le_total (t / ramp_duration) 1 with hle | hle
    · rw [min_eq_right hle, min_eq_right]
      have : (0 : ℚ) < target_spawn_chance_per_col := by norm_num [target_spawn_chance_per_col]
      nlinarith
    · rw [min_eq_left hle, mul_one, min_eq_left]
      have : (0 : ℚ) < target_spawn_chance_per_col := by norm_num [target_spawn_chance_per_col]
      nlinarith
  · rw [spawn_chance, if_pos hramp]
    exact min_le_left _ _
  · intro hge
    rw [spawn_chance, if_pos hramp, min_eq_left]
    have h1 : (1 : ℚ) ≤ t / ramp_duration := (one_le_div hramp).mpr hge
    have : (0 : ℚ) < target_spawn_chance_per_col := by norm_num [target_spawn_chance_per_col]
    nlinarith
  · rw [spawn_attempted, hzero]
    simpa using hrand

/-- Witness for C2 at concrete inputs `t = 12` and `t = 1/2`. -/
theorem claim_C2_witness :
    spawn_chance 12 = target_spawn_chance_per_col ∧
    spawn_chance (1/2) ≤ target_spawn_chance_per_col := by
  refine ⟨(claim_C2 12 0 (by norm_num) le_rfl).2.2.2.1 (by norm_num [ramp_duration]), ?_⟩
  exact (claim_C2 (1/2) 0 (by norm_num) le_rfl).2.2.1

/-- C3: after an update, a particle whose top row (integer part of its
non-negative vertical position) is at least the grid height is absent
from the culled live set, and one whose top row is below the grid height
remains present. -/
theorem claim_C3 (l : List Heart) (ht : Heart) (height : ℕ)
    (hmem : Heart.step ht ∈ l) (hy : 0 ≤ (Heart.step ht).y) :
    ((height : ℤ) ≤ pyInt (Heart.step ht).y → Heart.step ht ∉ cull l height) ∧
    (pyInt (Heart.step ht).y < (height : ℤ) → Heart.step ht ∈ cull l height) := by
  have hpy : pyInt (Heart.step ht).y = ⌊(Heart.step ht).y⌋ := if_pos hy
  constructor
  · intro hge hmemc
    have hfil := (List.mem_filter.mp hmemc).2
    rw [decide_eq_true_eq] at hfil
    rw [hpy, Int.le_floor] at hge
    have : ((height : ℤ) : ℚ) = ((height : ℕ) : ℚ) := by push_cast; ring
    rw [this] at hge
    linarith
  · intro hlt
    refine List.mem_filter.mpr ⟨hmem, ?_⟩
    rw [decide_eq_true_eq]
    rw [hpy, Int.floor_lt] at hlt
    have : ((height : ℤ) : ℚ) = ((height : ℕ) : ℚ) := by push_cast; ring
    rw [this] at hlt
    exact hlt

/-- Witness for C3: the stepped sample heart has top row 2 < 10 and is
kept by the cull. -/
theorem claim_C3_witness : Heart.step sampleHeart ∈ cull [Heart.step sampleHeart] 10 :=
  (claim_C3 [Heart.step sampleHeart] sampleHeart 10 (List.mem_singleton.mpr rfl)
    (by norm_num [Heart.step, sampleHeart])).2 (by with_unfolding_all decide)

/-- C9: a spawned particle's velocity is positive (given the contract of
`random.uniform` on the size-dependent range), and the per-tick update
changes only the vertical position (by adding the velocity) and the
twinkle state — every other field, in particular the velocity, is
unchanged; `Heart.step` likewise preserves the velocity. -/
theorem claim_C9 (col : ℕ) (size_choice style_choice : String) (glyph : List Char)
    (spd : ℚ) (color : String) (phase : ℕ) (tnext : ℚ)
    (ht : Heart) (now : ℚ) (newPhase : ℕ) (rollNext : ℚ)
    (hspd : (spawn_speed_range size_choice).1 ≤ spd) :
    0 < (spawn_heart col size_choice style_choice glyph spd color phase tnext).speed ∧
    (update_heart ht now newPhase rollNext).speed = ht.speed ∧
    (update_heart ht now newPhase rollNext).y = ht.y + ht.speed ∧
    (update_heart ht now newPhase rollNext).x = ht.x ∧
    (update_heart ht now newPhase rollNext).color = ht.color ∧
    (update_heart ht now newPhase rollNext).size = ht.size ∧
    (update_heart ht now newPhase rollNext).style = ht.style ∧
    (update_heart ht now newPhase rollNext).sprite = ht.sprite ∧
    (update_heart ht now newPhase rollNext).w = ht.w ∧
    (update_heart ht now newPhase rollNext).h = ht.h ∧
    (Heart.step ht).speed = ht.speed := by
  have hpos : 0 < spd := by
    by_cases hsz : size_choice = "small"
    · rw [spawn_speed_range, if_pos hsz] at hspd
      norm_num [base_min_speed] at hspd
      linarith
    · rw [spawn_speed_range, if_neg hsz] at hspd
      norm_num [base_min_speed] at hspd
      linarith
  refine ⟨hpos, ?_, ?_, ?_, ?_, ?_, ?_, ?_, ?_, ?_, rfl⟩ <;>
    · rw [update_heart]
      split <;> rfl

/-- Witness for C9: instantiation at the sample heart and a concrete
small-size speed draw. -/
theorem claim_C9_witness :
    0 < (spawn_heart 3 "small" "filled" ['♥'] (1/10) "pink" 0 0).speed :=
  (claim_C9 3 "small" "filled" ['♥'] (1/10) "pink" 0 0 sampleHeart 1 0 (1/4)
    (by norm_num [spawn_speed_range, base_min_speed])).1

/-- C8: for every rasterization target size of at least 5×5 cells, the
coverage mask assigns coverage strictly greater than 0 to the grid cell
nearest the shape's geometric center — the cell in row `(h-1)/2` and
column `(w-1)/2` (for even extents this is the unique nearest cell to
the normalized center, for odd extents one of the two tied nearest). -/
theorem claim_C8 (w h : ℕ) (hw : 5 ≤ w) (hh : 5 ≤ h) :
    0 < coverage w h ((h - 1) / 2) ((w - 1) / 2) := by
  have hins := insideSample_center w h hw hh
  have hss : 0 < ssN w := by
    rw [ssN]
    split <;> norm_num
  have hmem0 : (0 : ℕ) ∈ List.range (ssN w) := List.mem_range.mpr hss
  have hpos : 0 < (List.range (ssN w)).countP
      (fun sc => insideSample w h ((h - 1) / 2) ((w - 1) / 2) 0 sc) :=
    List.countP_pos_iff.mpr ⟨0, hmem0, hins⟩
  have hel : (List.range (ssN w)).countP
      (fun sc => insideSample w h ((h - 1) / 2) ((w - 1) / 2) 0 sc) ∈
      (List.range (ssN w)).map (fun sr => (List.range (ssN w)).countP
        (fun sc => insideSample w h ((h - 1) / 2) ((w - 1) / 2) sr sc)) :=
    List.mem_map.mpr ⟨0, hmem0, rfl⟩
  have hcnt : 0 < inside_count w h ((h - 1) / 2) ((w - 1) / 2) := by
    rw [inside_count]
    exact lt_of_lt_of_le hpos (List.single_le_sum (fun x _ => Nat.zero_le x) _ hel)
  rw [coverage]
  apply div_pos
  · exact_mod_cast hcnt
  · exact_mod_cast Nat.mul_pos hss hss

/-- Witness for C8 at the small size class's 9×8 grid: the cell in row 3,
column 4 has positive coverage. -/
theorem claim_C8_witness : 0 < coverage 9 8 ((8 - 1) / 2) ((9 - 1) / 2) :=
  claim_C8 9 8 (by norm_num) (by norm_num)

/-- C5: for each of the six supported (size-class, style) rasterizer
inputs — small 9×8, medium 13×11, large 17×15, each filled or outline —
the produced sprite has no fully-transparent leading or trailing row and
every row has the sprite's maximum row width. -/
theorem claim_C5 :
    sprite_ok (make_heart_sprite "small" "filled") = true ∧
    sprite_ok (make_heart_sprite "small" "outline") = true ∧
    sprite_ok (make_heart_sprite "medium" "filled") = true ∧
    sprite_ok (make_heart_sprite "medium" "outline") = true ∧
    sprite_ok (make_heart_sprite "large" "filled") = true ∧
    sprite_ok (make_heart_sprite "large" "outline") = true := by
  with_unfolding_all decide

/-- C1: a spawn-planning pass preserves the no-overlap invariant — if no
two hearts of the initial live list have overlapping bounding boxes,
then after folding any list of candidates through the accept/discard
check, no two hearts of the resulting live list overlap either. -/
theorem claim_C1 (init cands : List Heart) (h : NoOverlaps init) :
    NoOverlaps (spawn_pass init cands) := by
  induction cands generalizing init with
  | nil => simpa [spawn_pass] using h
  | cons c cs ih =>
    rw [spawn_pass, List.foldl_cons]
    exact ih (try_spawn init c) (noOverlaps_try_spawn h c)

/-- Witness for C1: a concrete pass over a two-heart live list and one
candidate coinciding with an existing heart. -/
theorem claim_C1_witness :
    NoOverlaps (spawn_pass [sampleHeart, sampleHeart2] [sampleHeart]) := by
  refine claim_C1 [sampleHeart, sampleHeart2] [sampleHeart] ?_
  rw [NoOverlaps, List.pairwise_cons]
  refine ⟨?_, List.pairwise_singleton _ _⟩
  intro b hb
  rw [List.mem_singleton] at hb
  subst hb
  with_unfolding_all decide

/-- C10: because each box's right/bottom bound is one past the last
occupied cell and the test compares bounds inclusively, two hearts whose
occupied cells are disjoint but horizontally adjacent (the second one's
left edge equals the first one's left edge plus its width, at equal top
rows) are still reported as overlapping — so spawn rejection keeps a
one-cell gap. -/
theorem claim_C10 (h1 h2 : Heart)
    (hadj : h2.x - (h2.w / 2 : ℕ) = h1.x - (h1.w / 2 : ℕ) + h1.w)
    (htop : pyInt h2.y = pyInt h1.y) :
    cells_disjoint h1 h2 = true ∧ hearts_overlap h1 h2 = true := by
  constructor
  · rw [cells_disjoint, List.all_eq_true]
    intro p hp
    rw [decide_eq_true_eq]
    rw [mem_box_cells] at hp
    obtain ⟨r, c, hr, hc, rfl⟩ := hp
    rw [mem_box_cells]
    rintro ⟨r2, c2, hr2, hc2, heq⟩
    rw [Prod.mk.injEq] at heq
    obtain ⟨-, hcol⟩ := heq
    omega
  · simp only [hearts_overlap, ← Bool.decide_or, ← decide_not, decide_eq_true_eq]
    omega

/-- Witness for C10: two 1×1 hearts in adjacent columns at the same row:
their cells are disjoint, yet the overlap test reports them as
overlapping. -/
theorem claim_C10_witness :
    cells_disjoint
      { x := 0, y := 2, color := "pink", speed := 1/2, size := "small", style := "filled",
        sprite := [['♥']], w := 1, h := 1, twinkle_phase := 0, twinkle_next := 0 }
      { x := 1, y := 2, color := "pink", speed := 1/2, size := "small", style := "filled",
        sprite := [['♥']], w := 1, h := 1, twinkle_phase := 0, twinkle_next := 0 } = true ∧
    hearts_overlap
      { x := 0, y := 2, color := "pink", speed := 1/2, size := "small", style := "filled",
        sprite := [['♥']], w := 1, h := 1, twinkle_phase := 0, twinkle_next := 0 }
      { x := 1, y := 2, color := "pink", speed := 1/2, size := "small", style := "filled",
        sprite := [['♥']], w := 1, h := 1, twinkle_phase := 0, twinkle_next := 0 } = true :=
  claim_C10 _ _ (by decide) rfl

/-- C6: on every exit path of the animation loop — normal completion,
KeyboardInterrupt at an arbitrary tick, or any other exception — the
teardown actions (show cursor, leave alternate screen) are each emitted
exactly once. -/
theorem claim_C6 (e : LoopExit) :
    ((main_run e).2.count TermAction.showCursor = 1) ∧
    ((main_run e).2.count TermAction.altScreenOff = 1) := by
  cases e <;>
    simp [main_run, try_except_ki_finally, loop_body, List.count_append,
      List.count_replicate, List.count_cons, List.count_nil]

/-- C7 counterexample: the compositor does not place the message's first
glyph at column `(width - len msg) / 2`. With `width = 21` and the
two-character message "ab", the claim predicts the first glyph 'a' at
column `(21 - 2) / 2 = 9`, but the buffer holds 'a' at column 10
(column 9 holds the final byte of the ANSI color prefix, which is
counted by the centering computation). -/
theorem claim_C7_counterexample :
    ['a', 'b'].length < 21 ∧
    (draw_msg_row ['a', 'b'] 21).getD ((21 - ['a', 'b'].length) / 2) '?' ≠ 'a' ∧
    (draw_msg_row ['a', 'b'] 21).getD 10 '?' = 'a' := by decide

/-- C7 (amended): the compositor centers the ANSI-colored message string,
whose length is the visible length plus 9 escape characters. When
`9 + len msg < width` the row is `(width - (9 + len msg)) / 2` spaces,
then the 5-character color prefix, the message, the 4-character reset,
and right padding — so the first glyph sits at column
`(width - (9 + len msg)) / 2 + 5`, one column right of
`(width - len msg) / 2` whenever `width - len msg` is odd. Otherwise the
row is the colored string truncated to exactly `width` characters (of
which only the first `width - 5` message glyphs survive). -/
theorem claim_C7_amended (msg : List Char) (width : ℕ) :
    draw_msg_row msg width =
      if 9 + msg.length < width then
        List.replicate ((width - (9 + msg.length)) / 2) ' ' ++ escMsgColor ++ msg ++ escReset ++
          List.replicate (width - ((width - (9 + msg.length)) / 2 + (9 + msg.length))) ' '
      else (escMsgColor ++ msg ++ escReset).take width := by
  have hlen : (escMsgColor ++ msg ++ escReset).length = 9 + msg.length := by
    simp [escMsgColor, escReset, List.length_append]
    omega
  rw [draw_msg_row, center_text, hlen]
  split
  case isTrue h =>
    -- truncation case: 9 + msg.length ≥ width
    rw [if_neg (by omega : ¬(9 + msg.length < width))]
    rw [List.take_take, min_self]
    have hl2 : ((escMsgColor ++ msg ++ escReset).take width).length = width := by
      rw [List.length_take, hlen]
      omega
    rw [hl2, Nat.sub_self]
    simp
  case isFalse h =>
    -- centered case: 9 + msg.length < width
    rw [if_pos (by omega : 9 + msg.length < width)]
    have hle : (List.replicate ((width - (9 + msg.length)) / 2) ' ' ++
        (escMsgColor ++ msg ++ escReset)).length ≤ width := by
      rw [List.length_append, List.length_replicate, hlen]
      omega
    rw [List.take_of_length_le hle]
    rw [List.length_append, List.length_replicate, hlen]
    simp [List.append_assoc]

end RelAnim
